import Mathlib

/-!
Verification development for the AIGENT backend (Django + Celery).

The definitions below are a shallow embedding of the code that drives one
user turn and its collaborators:

* `backend/aigents/tasks.py` — the Celery task
  `process_user_message_to_aigent` and its helper wrappers
  (`get_formatted_chat_history_wrapper`, `update_chat_history_wrapper`,
  endpoint validation, the `make_request_and_process` response pipeline,
  and the task's exception-classification clauses);
* `backend/aigents/models.py` — `Aigent.save` (single-active-agent write);
* `backend/tools/executor.py` — `get_tool_function` / `execute_tool`.

JSON-shaped Python values are embedded as the inductive `Json`; Python
`json.loads` is modelled by the executable `parseJson` (strict: the whole
input must be one JSON document; numeric literals are modelled over the
integral fragment, fractional/exponent literals are outside the modelled
fragment, which none of the verified behaviours exercise).
-/

namespace Aigent

/-- JSON-shaped Python values (the shapes produced by `json.loads` and
stored in Django `JSONField`s). Numbers are modelled as integers. -/
inductive Json where
  | null : Json
  | bool (b : Bool) : Json
  | num (n : Int) : Json
  | str (s : String) : Json
  | arr (xs : List Json) : Json
  | obj (kvs : List (String × Json)) : Json

/-- Python truthiness (`bool(v)`) for JSON-shaped values: `None`, `False`,
`0`, `""`, `[]`, `{}` are falsy, everything else truthy. -/
def pyTruthy : Json → Bool
  | .null => false
  | .bool b => b
  | .num n => n != 0
  | .str s => !s.isEmpty
  | .arr xs => !xs.isEmpty
  | .obj kvs => !kvs.isEmpty

/-- Python dict lookup on a key/value list built by JSON object parsing:
a duplicated key keeps the value written last (CPython dict semantics). -/
def jget (kvs : List (String × Json)) (k : String) : Option Json :=
  kvs.foldl (fun acc p => if p.1 = k then some p.2 else acc) none

/-- `list(d.keys())` of the dict built from the pair list: insertion order,
first occurrence wins for position. -/
def jkeys (kvs : List (String × Json)) : List String :=
  kvs.foldl (fun acc p => if acc.contains p.1 then acc else acc ++ [p.1]) []

/-- Opening brace character. -/
def lbraceC : Char := Char.ofNat 123

/-- Closing brace character. -/
def rbraceC : Char := Char.ofNat 125

/-- Single-quote character. -/
def squoteC : Char := Char.ofNat 39

/-- JSON insignificant whitespace (the characters `json.loads` skips). -/
def isJsonWs (c : Char) : Bool :=
  c = ' ' || c = '\t' || c = '\n' || c = '\r'

/-- Skip leading JSON whitespace. -/
def skipWs : List Char → List Char
  | [] => []
  | c :: cs => if isJsonWs c then skipWs cs else c :: cs

/-- Match an expected literal character sequence, returning the rest. -/
def stripChars : List Char → List Char → Option (List Char)
  | [], cs => some cs
  | _, [] => none
  | p :: ps, c :: cs => if c = p then stripChars ps cs else none

/-- Hex digit value, for `\uXXXX` string escapes. -/
def hexVal (c : Char) : Option Nat :=
  if '0' ≤ c ∧ c ≤ '9' then some (c.toNat - 48)
  else if 'a' ≤ c ∧ c ≤ 'f' then some (c.toNat - 87)
  else if 'A' ≤ c ∧ c ≤ 'F' then some (c.toNat - 55)
  else none

/-- Body of a JSON string literal, after the opening quote. Strict like
`json.loads`: unescaped control characters are rejected; the usual
escapes and `\uXXXX` are decoded. -/
def parseStringBody : Nat → List Char → List Char → Option (String × List Char)
  | 0, _, _ => none
  | _, [], _ => none
  | fuel + 1, c :: rest, acc =>
    if c = '"' then some (String.mk acc.reverse, rest)
    else if c = '\\' then
      match rest with
      | [] => none
      | e :: rest2 =>
        if e = '"' then parseStringBody fuel rest2 ('"' :: acc)
        else if e = '\\' then parseStringBody fuel rest2 ('\\' :: acc)
        else if e = '/' then parseStringBody fuel rest2 ('/' :: acc)
        else if e = 'n' then parseStringBody fuel rest2 ('\n' :: acc)
        else if e = 't' then parseStringBody fuel rest2 ('\t' :: acc)
        else if e = 'r' then parseStringBody fuel rest2 ('\r' :: acc)
        else if e = 'b' then parseStringBody fuel rest2 (Char.ofNat 8 :: acc)
        else if e = 'f' then parseStringBody fuel rest2 (Char.ofNat 12 :: acc)
        else if e = 'u' then
          match rest2 with
          | a :: b2 :: c2 :: d :: rest3 =>
            match hexVal a, hexVal b2, hexVal c2, hexVal d with
            | some x, some y, some z, some w =>
              parseStringBody fuel rest3
                (Char.ofNat (((x * 16 + y) * 16 + z) * 16 + w) :: acc)
            | _, _, _, _ => none
          | _ => none
        else none
    else if c.toNat < 32 then none
    else parseStringBody fuel rest (c :: acc)

/-- Split off a leading run of decimal digits. -/
def takeDigits : List Char → (List Char × List Char)
  | [] => ([], [])
  | c :: cs =>
    if c.isDigit then
      let (ds, rest) := takeDigits cs
      (c :: ds, rest)
    else ([], c :: cs)

/-- Decimal digits to a natural number. -/
def digitsToNat (ds : List Char) : Nat :=
  ds.foldl (fun a c => a * 10 + (c.toNat - 48)) 0

/-- JSON integer literal (optional minus, no leading zeros). Fractional and
exponent literals are outside the modelled fragment. -/
def parseNum (cs : List Char) : Option (Json × List Char) :=
  let (neg, cs1) := match cs with
    | '-' :: r => (true, r)
    | _ => (false, cs)
  match takeDigits cs1 with
  | ([], _) => none
  | (ds, rest) =>
    if 1 < ds.length ∧ ds.head? = some '0' then none
    else
      match rest with
      | '.' :: _ => none
      | 'e' :: _ => none
      | 'E' :: _ => none
      | _ =>
        let n : Int := Int.ofNat (digitsToNat ds)
        some (.num (if neg then -n else n), rest)

mutual

/-- One JSON value, leading whitespace allowed; returns the remainder. -/
def parseVal : Nat → List Char → Option (Json × List Char)
  | 0, _ => none
  | fuel + 1, cs =>
    match skipWs cs with
    | [] => none
    | c :: rest =>
      if c = lbraceC then parseObjBody fuel rest
      else if c = '[' then parseArrBody fuel rest
      else if c = '"' then
        match parseStringBody (fuel + 1) rest [] with
        | some (s, r) => some (.str s, r)
        | none => none
      else if c = 't' then
        match stripChars ['r', 'u', 'e'] rest with
        | some r => some (.bool true, r)
        | none => none
      else if c = 'f' then
        match stripChars ['a', 'l', 's', 'e'] rest with
        | some r => some (.bool false, r)
        | none => none
      else if c = 'n' then
        match stripChars ['u', 'l', 'l'] rest with
        | some r => some (.null, r)
        | none => none
      else if c = '-' ∨ c.isDigit then parseNum (c :: rest)
      else none

/-- Object body after the opening brace. -/
def parseObjBody : Nat → List Char → Option (Json × List Char)
  | 0, _ => none
  | fuel + 1, cs =>
    match skipWs cs with
    | [] => none
    | c :: rest =>
      if c = rbraceC then some (.obj [], rest)
      else parseMembers fuel (c :: rest) []

/-- Object members; the head of the input must be the opening quote of the
next key (whitespace already skipped). -/
def parseMembers : Nat → List Char → List (String × Json) →
    Option (Json × List Char)
  | 0, _, _ => none
  | fuel + 1, cs, acc =>
    match cs with
    | '"' :: rest =>
      match parseStringBody (fuel + 1) rest [] with
      | none => none
      | some (k, rest2) =>
        match skipWs rest2 with
        | ':' :: rest3 =>
          match parseVal fuel rest3 with
          | none => none
          | some (v, rest4) =>
            match skipWs rest4 with
            | ',' :: rest5 => parseMembers fuel (skipWs rest5) (acc ++ [(k, v)])
            | d :: rest5 =>
              if d = rbraceC then some (.obj (acc ++ [(k, v)]), rest5) else none
            | [] => none
        | _ => none
    | _ => none

/-- Array body after the opening bracket. -/
def parseArrBody : Nat → List Char → Option (Json × List Char)
  | 0, _ => none
  | fuel + 1, cs =>
    match skipWs cs with
    | ']' :: rest => some (.arr [], rest)
    | cs' => parseElems fuel cs' []

/-- Array elements. -/
def parseElems : Nat → List Char → List Json → Option (Json × List Char)
  | 0, _, _ => none
  | fuel + 1, cs, acc =>
    match parseVal fuel cs with
    | none => none
    | some (v, rest) =>
      match skipWs rest with
      | ',' :: rest2 => parseElems fuel rest2 (acc ++ [v])
      | ']' :: rest2 => some (.arr (acc ++ [v]), rest2)
      | _ => none

end

/-- Model of `json.loads` on a string: exactly one JSON document, possibly
surrounded by whitespace; any other trailing input is an error
(CPython raises `JSONDecodeError: Extra data`). -/
def parseJson (s : String) : Option Json :=
  let cs := s.toList
  match parseVal (3 * cs.length + 3) cs with
  | none => none
  | some (v, rest) => if (skipWs rest).isEmpty then some v else none

/-! ### Python string helpers used by the task module -/

/-- Python `str.capitalize()`: first character upper-cased, the rest
lower-cased (ASCII fragment). -/
def pyCapitalize (s : String) : String :=
  match s.toList with
  | [] => ""
  | c :: rest => String.mk (c.toUpper :: rest.map Char.toLower)

/-- Python `repr` of a string: single-quoted with backslash/quote escaping
(the double-quote-preference subtlety of CPython is outside the modelled
fragment). -/
def pyReprStr (s : String) : String :=
  let esc := s.toList.foldl
    (fun acc c =>
      if c = '\\' then acc ++ ['\\', '\\']
      else if c = squoteC then acc ++ ['\\', squoteC]
      else acc ++ [c]) []
  String.mk (squoteC :: esc ++ [squoteC])

mutual

/-- Python `repr` for JSON-shaped values; containers render Python-style
(`[...]` / `{'k': v}`). -/
def pyRepr : Json → String
  | .null => "None"
  | .bool true => "True"
  | .bool false => "False"
  | .num n => toString n
  | .str s => pyReprStr s
  | .arr xs => "[" ++ pyReprList xs ++ "]"
  | .obj kvs => String.mk [lbraceC] ++ pyReprPairs kvs ++ String.mk [rbraceC]

/-- Comma-separated `repr` of list elements. -/
def pyReprList : List Json → String
  | [] => ""
  | [x] => pyRepr x
  | x :: y :: xs => pyRepr x ++ ", " ++ pyReprList (y :: xs)

/-- Comma-separated `repr` of dict items. -/
def pyReprPairs : List (String × Json) → String
  | [] => ""
  | [p] => pyReprStr p.1 ++ ": " ++ pyRepr p.2
  | p :: q :: ps => pyReprStr p.1 ++ ": " ++ pyRepr p.2 ++ ", " ++ pyReprPairs (q :: ps)

end

/-- Python `str()` / f-string rendering of a JSON-shaped value: a string
renders as itself, anything else as its `repr`. -/
def pyStr (v : Json) : String :=
  match v with
  | .str s => s
  | _ => pyRepr v

/-- Python `s.rstrip('/')`: drop every trailing slash. -/
def rstripSlash (s : String) : String :=
  String.mk ((s.toList.reverse.dropWhile (· = '/')).reverse)

/-- Python `l[-n:]` for `n > 0`: the last `n` elements (all of them when
fewer). -/
def takeLast (n : Nat) (l : List Json) : List Json :=
  l.drop (l.length - n)

/-! ### `backend/aigents/tasks.py` — chat history helpers -/

/-- The `isinstance(history, list)` defensive check: a non-list stored
value is replaced by the empty list. -/
def normalizeHistory : Json → List Json
  | .arr xs => xs
  | _ => []

/-- One chat history entry as appended by `update_chat_history_wrapper`:
`{"role": ..., "content": ..., "timestamp": ...}`. The content is stored
as-is (the answer value is not stringified). -/
def histEntry (role : String) (content : Json) (ts : String) : Json :=
  .obj [("role", .str role), ("content", content), ("timestamp", ts |> .str)]

/-- `MAX_HISTORY_ENTRIES` in `update_chat_history_wrapper`. -/
def MAX_HISTORY_ENTRIES : Nat := 50

/-- `update_chat_history_wrapper`: normalize the stored value to a list,
append a user entry and an assistant entry bearing the same timestamp,
then truncate to the last `MAX_HISTORY_ENTRIES * 2` entries when the
length exceeds that bound. -/
def update_chat_history_wrapper (stored : Json) (userMessage : String)
    (answer : Json) (ts : String) : List Json :=
  let h := normalizeHistory stored ++
    [histEntry "user" (.str userMessage) ts, histEntry "assistant" answer ts]
  if h.length > MAX_HISTORY_ENTRIES * 2 then
    h.drop (h.length - MAX_HISTORY_ENTRIES * 2)
  else h

/-- Outcome of the `ChatHistory.objects.get` fetch inside
`get_formatted_chat_history_wrapper`. -/
inductive HistFetch where
  | found (stored : Json) : HistFetch
  | notFound : HistFetch
  | fetchError : HistFetch

/-- Rendering of one history entry as the f-string
`f"{entry.get('role','unknown').capitalize()}: {entry.get('content','')}"`.
`none` models the exceptions the surrounding `try` catches: `.get` on a
non-dict entry and `.capitalize` on a non-string role. -/
def formatEntry : Json → Option String
  | .obj kvs =>
    match (jget kvs "role").getD (.str "unknown") with
    | .str r => some (pyCapitalize r ++ ": " ++ pyStr ((jget kvs "content").getD (.str "")))
    | _ => none
  | _ => none

/-- `get_formatted_chat_history_wrapper` (limit 10): the last ten entries
rendered one per line, newest last; `"No previous conversation history."`
when there is nothing to show; `"Error retrieving conversation history."`
when the fetch or the formatting raises. -/
def get_formatted_chat_history_wrapper (fetch : HistFetch) (limit : Nat := 10) :
    String :=
  match fetch with
  | .fetchError => "Error retrieving conversation history."
  | .notFound => "No previous conversation history."
  | .found stored =>
    let entries := takeLast limit (normalizeHistory stored)
    match entries.mapM formatEntry with
    | none => "Error retrieving conversation history."
    | some lines =>
      if lines.isEmpty then "No previous conversation history."
      else String.intercalate "\n" lines

/-! ### `backend/aigents/tasks.py` — configuration validation and the
response pipeline -/

/-- Exception classes reaching the task's `except` clauses. -/
inductive TaskExc where
  | configMissing (what : String) : TaskExc
  | httpStatus (code : Nat) : TaskExc
  | netError : TaskExc
  | valueError (msg : String) : TaskExc
  | unexpected (msg : String) : TaskExc

/-- The configuration error message of step 4 of the task body. -/
def endpointsErrMsg (aigentName : String) : String :=
  "Aigent \x27" ++ aigentName ++ "\x27 has no valid Ollama endpoints configured."

/-- Step 4 of the task body: `ollama_endpoints` must be truthy, a list,
with a truthy first element; the target URL is built from the FIRST
endpoint only (`rstrip('/')` then append `/api/generate`). A truthy
non-string first element would make `.rstrip` raise `AttributeError`
(caught by the generic handler). -/
def validate_and_build_url (aigentName : String) (endpoints : Json) :
    Except TaskExc String :=
  if ¬ pyTruthy endpoints then .error (.valueError (endpointsErrMsg aigentName))
  else
    match endpoints with
    | .arr [] => .error (.valueError (endpointsErrMsg aigentName))
    | .arr (e0 :: _) =>
      if ¬ pyTruthy e0 then .error (.valueError (endpointsErrMsg aigentName))
      else
        match e0 with
        | .str s => .ok (rstripSlash s ++ "/api/generate")
        | _ => .error (.unexpected "AttributeError: rstrip")
    | _ => .error (.valueError (endpointsErrMsg aigentName))

/-- Required keys of the structured model output. -/
def requiredKeys : List String := ["answer_to_user", "updated_aigent_state", "updated_user_state"]

/-- Python `repr` of a list of strings (for the missing-keys message). -/
def pyReprStrList (xs : List String) : String :=
  "[" ++ String.intercalate ", " (xs.map pyReprStr) ++ "]"

/-- The `ValueError` raised when the response field is missing or falsy. -/
def responseMissingMsg : String := "Ollama response missing \x27response\x27 field."

/-- The modelled `JSONDecodeError` message (`json.JSONDecodeError` is a
subclass of `ValueError`; the concrete CPython text is abstracted). -/
def jsonDecodeErrMsg : String := "JSONDecodeError"

/-- The missing-keys `ValueError` message. -/
def missingKeysMsg (missing got : List String) : String :=
  "Ollama JSON output missing keys: " ++ pyReprStrList missing ++
    ". Got: " ++ pyReprStrList got

/-- Python `key in parsed` for a parsed JSON value: dict-key membership on
objects, element membership on lists, substring test on strings,
`TypeError` (`none`) otherwise. -/
def keyIn (j : Json) (k : String) : Option Bool :=
  match j with
  | .obj kvs => some (jget kvs k).isSome
  | .arr l => some (l.any fun e => match e with | .str s => s = k | _ => false)
  | .str s => some (s.toList.tails.any fun t => k.toList.isPrefixOf t)
  | _ => none

/-- `all(key in structured_llm_output for key in required_keys)`. -/
def keysCheck (j : Json) : Option Bool :=
  requiredKeys.foldr (fun k acc =>
    match keyIn j k, acc with
    | some b, some c => some (b && c)
    | _, _ => none) (some true)

/-- Steps inside `make_request_and_process` after the HTTP reply body is
available: read `"response"`, reject a missing/falsy value, `json.loads`
the string, validate the required keys, and extract the three fields. -/
def processOllamaBody (body : List (String × Json)) :
    Except TaskExc (Json × Json × Json) :=
  let rsp := (jget body "response").getD .null
  if ¬ pyTruthy rsp then .error (.valueError responseMissingMsg)
  else
    match rsp with
    | .str s =>
      match parseJson s with
      | none => .error (.valueError jsonDecodeErrMsg)
      | some j =>
        match keysCheck j with
        | none => .error (.unexpected "TypeError: argument of type is not iterable")
        | some present =>
          if present then
            match j with
            | .obj kvs =>
              .ok ((jget kvs "answer_to_user").getD .null,
                   (jget kvs "updated_aigent_state").getD .null,
                   (jget kvs "updated_user_state").getD .null)
            | _ => .error (.unexpected "TypeError: indexing non-dict output")
          else
            match j with
            | .obj kvs =>
              .error (.valueError (missingKeysMsg
                (requiredKeys.filter fun k => !(jget kvs k).isSome) (jkeys kvs)))
            | _ =>
              -- `list(structured_llm_output.keys())` on a non-dict raises
              -- AttributeError, caught by the generic handler.
              .error (.unexpected "AttributeError: keys")
    | _ => .error (.unexpected "TypeError: json.loads on non-string")

/-! ### `backend/aigents/tasks.py` — the whole turn and the retry policy -/

/-- Inputs of one turn that the claims depend on (stored states, stored
history, endpoint configuration, the user message, the append
timestamp). -/
structure TurnArgs where
  aigentName : String
  endpoints : Json
  aigentState : Json
  userState : Json
  history : Json
  userMessage : String
  timestamp : String

/-- What the single outbound HTTP POST would produce. -/
inductive OllamaReply where
  | ok (body : List (String × Json)) : OllamaReply
  | httpError (status : Nat) : OllamaReply
  | netError : OllamaReply

/-- Observable outcome of one execution of the task body (before the
`except` clauses map an exception to retry/failure). `modelCalls` counts
outbound generate requests, `toolCalls` counts tool-dispatcher
invocations, `urls` the endpoints contacted; the `*After` fields are what
the state store holds afterwards. -/
structure TurnResult where
  outcome : Except TaskExc (Json × Json × Json)
  modelCalls : Nat
  toolCalls : Nat
  urls : List String
  aigentStateAfter : Json
  userStateAfter : Json
  historyAfter : Json

/-- `process_user_message_to_aigent`, success path and raised exceptions:
validate the endpoint configuration, send one generate request to the
first endpoint, process the reply, then append the chat pair and return
the answer with the two updated-state values echoed as debug fields.
`replies` is the sequence of replies the endpoint would give to
successive requests; the body only ever consumes the first (a missing
entry behaves as a connection failure). No tool dispatch and no second
model call exist in this task body. -/
def process_user_message_to_aigent (args : TurnArgs) (replies : List OllamaReply) :
    TurnResult :=
  match validate_and_build_url args.aigentName args.endpoints with
  | .error e =>
    { outcome := .error e, modelCalls := 0, toolCalls := 0, urls := [],
      aigentStateAfter := args.aigentState, userStateAfter := args.userState,
      historyAfter := args.history }
  | .ok url =>
    match replies.headD .netError with
    | .httpError s =>
      { outcome := .error (.httpStatus s), modelCalls := 1, toolCalls := 0,
        urls := [url], aigentStateAfter := args.aigentState,
        userStateAfter := args.userState, historyAfter := args.history }
    | .netError =>
      { outcome := .error .netError, modelCalls := 1, toolCalls := 0,
        urls := [url], aigentStateAfter := args.aigentState,
        userStateAfter := args.userState, historyAfter := args.history }
    | .ok body =>
      match processOllamaBody body with
      | .error e =>
        { outcome := .error e, modelCalls := 1, toolCalls := 0, urls := [url],
          aigentStateAfter := args.aigentState, userStateAfter := args.userState,
          historyAfter := args.history }
      | .ok (ans, agDebug, usDebug) =>
        { outcome := .ok (ans, agDebug, usDebug), modelCalls := 1, toolCalls := 0,
          urls := [url], aigentStateAfter := args.aigentState,
          userStateAfter := args.userState,
          historyAfter := .arr (update_chat_history_wrapper args.history
            args.userMessage ans args.timestamp) }

/-- Celery decorator arguments of the task. -/
def maxRetries : Nat := 3

/-- `default_retry_delay` of the task (seconds). -/
def defaultRetryDelay : Nat := 60

/-- What the task does with a raised exception. -/
inductive TaskOutcome where
  | retryAfter (countdown : Nat) : TaskOutcome
  | fail : TaskOutcome

/-- `self.retry(countdown=int(self.default_retry_delay * (self.request.retries + 1)))`:
retries if the retry budget is not exhausted, otherwise Celery raises
`MaxRetriesExceededError` and the task fails. -/
def tryRetry (retries : Nat) : TaskOutcome :=
  if retries < maxRetries then .retryAfter (defaultRetryDelay * (retries + 1))
  else .fail

/-- The `except` clauses of `process_user_message_to_aigent`, in source
order: configuration `DoesNotExist` → fail; `httpx.HTTPStatusError` →
retry only for 5xx; `httpx.RequestError` (connection/timeout) → retry;
`ValueError` (JSON decode, missing keys, bad endpoints, missing response
field) → fail; anything else → fail. -/
def handleTaskExc (e : TaskExc) (retries : Nat) : TaskOutcome :=
  match e with
  | .configMissing _ => .fail
  | .httpStatus code => if 500 ≤ code ∧ code < 600 then tryRetry retries else .fail
  | .netError => tryRetry retries
  | .valueError _ => .fail
  | .unexpected _ => .fail

/-! ### `backend/aigents/models.py` — `Aigent.save` -/

/-- The slice of an `Aigent` row that the single-active invariant talks
about. -/
structure AgentRec where
  pk : Nat
  is_active : Bool

/-- `Aigent.save`: when the saved instance is active, first run
`Aigent.objects.filter(is_active=True).exclude(pk=self.pk).update(is_active=False)`,
then `super().save()` writes the instance row (update when the pk exists,
insert otherwise). -/
def aigentSave (db : List AgentRec) (a : AgentRec) : List AgentRec :=
  let db1 :=
    if a.is_active then
      db.map fun b => if b.pk = a.pk then b else { b with is_active := false }
    else db
  if db1.any (fun b => b.pk = a.pk) then
    db1.map fun b => if b.pk = a.pk then a else b
  else db1 ++ [a]

/-! ### `backend/tools/executor.py` -/

/-- The keys of `TOOL_REGISTRY`. -/
def TOOL_REGISTRY : List String := ["web_search", "manage_calendar"]

/-- Outcome of invoking a tool function with `**parameters`: a returned
value, a `TypeError` (e.g. wrong parameter arity/names at binding), or
any other exception. -/
inductive ToolRun where
  | ok (v : Json) : ToolRun
  | typeError (msg : String) : ToolRun
  | raised (msg : String) : ToolRun

/-- A resolved tool implementation: either a plain function or a
coroutine function (`async def`), each mapping the parameter dict to an
invocation outcome. -/
inductive ToolImpl where
  | sync (call : Json → ToolRun) : ToolImpl
  | async (call : Json → ToolRun) : ToolImpl

/-- `asyncio.run` on the coroutine of an async tool: runs it to
completion and yields its outcome. -/
def asyncioRun (co : Unit → ToolRun) : ToolRun := co ()

/-- `get_tool_function`: `None` for a name outside `TOOL_REGISTRY`;
otherwise the dynamic import, which may itself fail (`env` supplies
the import result for registered names). -/
def get_tool_function (env : String → Option ToolImpl) (toolName : String) :
    Option ToolImpl :=
  if TOOL_REGISTRY.contains toolName then env toolName else none

/-- `execute_tool`: always returns a plain string. An unresolved tool
yields a descriptive error string; a coroutine function is run to
completion with `asyncio.run`; a returned value is coerced with `str`;
`TypeError` and any other exception are converted to error strings. -/
def execute_tool (env : String → Option ToolImpl) (toolName : String)
    (parameters : Json) : String :=
  match get_tool_function env toolName with
  | none =>
    "Error: Tool \x27" ++ toolName ++ "\x27 is not available or configured incorrectly."
  | some impl =>
    let r := match impl with
      | .async call => asyncioRun (fun _ => call parameters)
      | .sync call => call parameters
    match r with
    | .ok v => pyStr v
    | .typeError m => "Error: Invalid parameters for tool \x27" ++ toolName ++ "\x27. " ++ m
    | .raised m => "Error: An unexpected error occurred while running the tool: " ++ m

/-! ## Theorems -/

/-- The list a successful turn builds before truncation: the normalized
stored history plus the user/assistant pair sharing one timestamp. -/
def appendedHistory (stored : Json) (userMessage : String) (answer : Json)
    (ts : String) : List Json :=
  normalizeHistory stored ++
    [histEntry "user" (.str userMessage) ts, histEntry "assistant" answer ts]

/-- A model of the import environment for the registered tools, used to
exercise the dispatcher: `web_search` resolves to a coroutine function
requiring a `query` keyword argument; `manage_calendar` fails
to import. -/
def sampleToolEnv : String → Option ToolImpl :=
  fun n =>
    if n = "web_search" then
      some (.async fun p =>
        match p with
        | .obj kvs =>
          if (jget kvs "query").isSome then .ok (.str "Paris is the capital of France.")
          else .typeError "search_web() missing 1 required positional argument: \x27query\x27"
        | _ => .raised "mapping required")
    else none

/-- Concrete turn inputs used to exercise the task body: one configured
endpoint, empty object states, empty history. -/
def sampleArgs : TurnArgs :=
  { aigentName := "LBA-Prime",
    endpoints := .arr [.str "http://host.docker.internal:11434"],
    aigentState := .obj [],
    userState := .obj [],
    history := .arr [],
    userMessage := "What is the capital of France?",
    timestamp := "2025-05-01T12:00:00Z" }

/-- A model reply carrying all three required keys and non-empty updated
states. -/
def fullAnswerRaw : String :=
  "\x7b\"answer_to_user\": \"Hi\", \"updated_aigent_state\": \x7b\"mood\": \"happy\"\x7d, \"updated_user_state\": \x7b\"n\": 1\x7d\x7d"

/-- A decide-phase reply in the tool-selection shape. -/
def toolSelectionRaw : String :=
  "\x7b\"tool_to_use\": \"web_search\", \"parameters\": \x7b\"query\": \"capital of France\"\x7d\x7d"

/-- The synthesis-phase reply the endpoint would give to a second
request. -/
def synthesisRaw : String :=
  "\x7b\"answer_to_user\": \"Paris.\", \"updated_aigent_state\": \x7b\x7d, \"updated_user_state\": \x7b\x7d\x7d"

/-- A well-formed JSON object carrying the three required keys. -/
def innerAnswerJson : String :=
  "\x7b\"answer_to_user\": \"Hi\", \"updated_aigent_state\": \x7b\x7d, \"updated_user_state\": \x7b\x7d\x7d"

/-- The same object surrounded by conversational prose. -/
def proseWrappedRaw : String :=
  "Sure! Here is the JSON you asked for: " ++ innerAnswerJson ++ " Hope that helps."

/-- C5. A successful turn's chat-history update appends exactly two
entries — a user entry then an assistant entry with the same timestamp —
and stores the most recent `min length 100` entries of the appended list:
a suffix, so only the oldest entries are dropped and the order of the
remainder is preserved, and the stored list still ends with the new
pair. -/
theorem update_chat_history_append_truncate (stored : Json) (m : String)
    (ans : Json) (ts : String) :
    (appendedHistory stored m ans ts).length = (normalizeHistory stored).length + 2
    ∧ update_chat_history_wrapper stored m ans ts =
        (appendedHistory stored m ans ts).drop
          ((appendedHistory stored m ans ts).length - 100)
    ∧ (appendedHistory stored m ans ts).take
          ((appendedHistory stored m ans ts).length - 100) ++
        update_chat_history_wrapper stored m ans ts = appendedHistory stored m ans ts
    ∧ (update_chat_history_wrapper stored m ans ts).length =
        min (appendedHistory stored m ans ts).length 100
    ∧ ∃ p, update_chat_history_wrapper stored m ans ts =
        p ++ [histEntry "user" (.str m) ts, histEntry "assistant" ans ts] := by
  set l := appendedHistory stored m ans ts with hl
  have hlen : l.length = (normalizeHistory stored).length + 2 := by
    simp [hl, appendedHistory]
  have hupd : update_chat_history_wrapper stored m ans ts = l.drop (l.length - 100) := by
    show (if l.length > 100 then l.drop (l.length - 100) else l) = l.drop (l.length - 100)
    by_cases h : l.length > 100
    · rw [if_pos h]
    · rw [if_neg h]
      have h0 : l.length - 100 = 0 := by omega
      rw [h0, List.drop_zero]
  refine ⟨hlen, hupd, ?_, ?_, ?_⟩
  · rw [hupd, List.take_append_drop]
  · rw [hupd, List.length_drop]; omega
  · rw [hupd, hl]
    unfold appendedHistory
    rw [List.drop_append_of_le_length
      (by simp only [List.length_append, List.length_cons, List.length_nil]; omega)]
    exact ⟨_, rfl⟩

/-- C4. The task's exception handling retries exactly the transient
failures — an HTTP 5xx status or a connection/timeout error — and only
while the attempt ceiling (3 retries) is not exhausted; the countdown is
the fixed delay scaled by the attempt number, so the backoff increases;
any other HTTP error status and every `ValueError` (JSON decode, missing
keys) fail immediately. -/
theorem retry_policy_transient_only (e : TaskExc) (r : Nat) :
    ((∃ c, handleTaskExc e r = .retryAfter c) ↔
      (((∃ s, e = .httpStatus s ∧ 500 ≤ s ∧ s < 600) ∨ e = .netError) ∧ r < maxRetries))
    ∧ (∀ c, handleTaskExc e r = .retryAfter c → c = defaultRetryDelay * (r + 1))
    ∧ (∀ msg, handleTaskExc (.valueError msg) r = .fail)
    ∧ (∀ s, ¬ (500 ≤ s ∧ s < 600) → handleTaskExc (.httpStatus s) r = .fail)
    ∧ (∀ r1 r2 c1 c2, r1 < r2 → handleTaskExc e r1 = .retryAfter c1 →
        handleTaskExc e r2 = .retryAfter c2 → c1 < c2) := by
  have hval : ∀ msg r', handleTaskExc (.valueError msg) r' = .fail := fun _ _ => rfl
  have htry : ∀ r' c, tryRetry r' = .retryAfter c →
      c = defaultRetryDelay * (r' + 1) ∧ r' < maxRetries := by
    intro r' c h
    unfold tryRetry at h
    by_cases h2 : r' < maxRetries
    · rw [if_pos h2] at h
      cases h
      exact ⟨rfl, h2⟩
    · rw [if_neg h2] at h
      exact absurd h (by simp)
  have hcd : ∀ e' r' c, handleTaskExc e' r' = .retryAfter c →
      c = defaultRetryDelay * (r' + 1) := by
    intro e' r' c h
    cases e' with
    | configMissing w => exact absurd h (by simp [handleTaskExc])
    | httpStatus s =>
      simp only [handleTaskExc] at h
      by_cases h1 : 500 ≤ s ∧ s < 600
      · rw [if_pos h1] at h
        exact (htry r' c h).1
      · rw [if_neg h1] at h
        exact absurd h (by simp)
    | netError => exact (htry r' c h).1
    | valueError m => exact absurd h (by simp [handleTaskExc])
    | unexpected m => exact absurd h (by simp [handleTaskExc])
  refine ⟨?_, hcd e r, fun msg => hval msg r, ?_, ?_⟩
  · constructor
    · intro ⟨c, hc⟩
      cases e with
      | configMissing w => exact absurd hc (by simp [handleTaskExc])
      | httpStatus s =>
        simp only [handleTaskExc] at hc
        by_cases h1 : 500 ≤ s ∧ s < 600
        · rw [if_pos h1] at hc
          exact ⟨Or.inl ⟨s, rfl, h1.1, h1.2⟩, (htry r c hc).2⟩
        · rw [if_neg h1] at hc
          exact absurd hc (by simp)
      | netError => exact ⟨Or.inr rfl, (htry r c hc).2⟩
      | valueError m => exact absurd hc (by simp [handleTaskExc])
      | unexpected m => exact absurd hc (by simp [handleTaskExc])
    · rintro ⟨htrans, hr⟩
      rcases htrans with ⟨s, rfl, h5a, h5b⟩ | rfl
      · refine ⟨defaultRetryDelay * (r + 1), ?_⟩
        simp only [handleTaskExc, tryRetry]
        rw [if_pos ⟨h5a, h5b⟩, if_pos hr]
      · refine ⟨defaultRetryDelay * (r + 1), ?_⟩
        simp only [handleTaskExc, tryRetry]
        rw [if_pos hr]
  · intro s hs
    simp only [handleTaskExc]
    rw [if_neg hs]
  · intro r1 r2 c1 c2 hlt h1 h2
    have e1 := hcd e r1 c1 h1
    have e2 := hcd e r2 c2 h2
    rw [e1, e2]
    show 60 * (r1 + 1) < 60 * (r2 + 1)
    omega

/-- C4 witness: a 503 on the first attempt is retried after 60 seconds; a
`ValueError` is failed immediately. -/
theorem retry_policy_transient_only_witness :
    (∃ c, handleTaskExc (.httpStatus 503) 0 = .retryAfter c)
    ∧ handleTaskExc (.valueError "missing keys") 1 = .fail
    ∧ handleTaskExc (.httpStatus 404) 0 = .fail := by
  refine ⟨?_, ?_, ?_⟩
  · exact (retry_policy_transient_only (.httpStatus 503) 0).1.mpr
      ⟨Or.inl ⟨503, rfl, by omega, by omega⟩, by decide⟩
  · exact (retry_policy_transient_only (.valueError "missing keys") 1).2.2.1 "missing keys"
  · exact (retry_policy_transient_only (.httpStatus 404) 0).2.2.2.1 404 (by omega)

/-- C10. When the endpoint reply body lacks a `response` field or holds a
falsy value there (in particular the empty string), the pipeline raises
the terminal `ValueError` "Ollama response missing \x27response\x27
field.", which is never retried — so an empty-string model output is
treated identically to a missing field. -/
theorem missing_response_field_spec (body : List (String × Json)) (r : Nat)
    (h : pyTruthy ((jget body "response").getD .null) = false) :
    processOllamaBody body = .error (.valueError responseMissingMsg)
    ∧ handleTaskExc (.valueError responseMissingMsg) r = .fail := by
  constructor
  · unfold processOllamaBody
    simp [h]
  · rfl

/-- C10 witness: an empty-string `response` and an absent `response`
field produce the same terminal error. -/
theorem missing_response_field_spec_witness :
    processOllamaBody [("response", .str "")] = .error (.valueError responseMissingMsg)
    ∧ processOllamaBody [("done", .bool true)] = .error (.valueError responseMissingMsg)
    ∧ handleTaskExc (.valueError responseMissingMsg) 0 = .fail := by
  refine ⟨(missing_response_field_spec [("response", .str "")] 0 (by rfl)).1,
    (missing_response_field_spec [("done", .bool true)] 0 (by rfl)).1,
    (missing_response_field_spec [("response", .str "")] 0 (by rfl)).2⟩

/-- C9. The outbound request goes only to the first configured endpoint:
the target URL is the first element with trailing slashes stripped plus
`/api/generate`, and it does not depend on the remaining endpoints (no
failover). An empty list, a non-list value, or a falsy first element
raises the configuration `ValueError` before any network call (zero
requests, zero model calls), and that error is never retried. -/
theorem endpoint_selection_spec :
    (∀ (name s : String) (rest : List Json), s ≠ "" →
      validate_and_build_url name (.arr (.str s :: rest)) =
        .ok (rstripSlash s ++ "/api/generate"))
    ∧ (∀ name, validate_and_build_url name (.arr []) =
        .error (.valueError (endpointsErrMsg name)))
    ∧ (∀ name j, (∀ l, j ≠ .arr l) →
        validate_and_build_url name j = .error (.valueError (endpointsErrMsg name)))
    ∧ (∀ name rest, validate_and_build_url name (.arr (.str "" :: rest)) =
        .error (.valueError (endpointsErrMsg name)))
    ∧ (∀ args replies e, validate_and_build_url args.aigentName args.endpoints = .error e →
        (process_user_message_to_aigent args replies).urls = []
        ∧ (process_user_message_to_aigent args replies).modelCalls = 0
        ∧ (process_user_message_to_aigent args replies).outcome = .error e)
    ∧ (∀ args replies url, validate_and_build_url args.aigentName args.endpoints = .ok url →
        (process_user_message_to_aigent args replies).urls = [url])
    ∧ (∀ name r, handleTaskExc (.valueError (endpointsErrMsg name)) r = .fail) := by
  refine ⟨?_, ?_, ?_, ?_, ?_, ?_, ?_⟩
  · intro name s rest hs
    have hse : s.isEmpty = false := by
      cases hse : s.isEmpty
      · rfl
      · exact absurd ((String.isEmpty_iff s).mp hse) hs
    simp [validate_and_build_url, pyTruthy, hse]
  · intro name
    rfl
  · intro name j hj
    unfold validate_and_build_url
    split
    · rfl
    · cases j with
      | arr l => exact absurd rfl (hj l)
      | null => rfl
      | bool b => rfl
      | num n => rfl
      | str s => rfl
      | obj kvs => rfl
  · intro name rest
    rfl
  · intro args replies e hv
    unfold process_user_message_to_aigent
    rw [hv]
    exact ⟨rfl, rfl, rfl⟩
  · intro args replies url hv
    unfold process_user_message_to_aigent
    split
    next e heq =>
      rw [hv] at heq
      exact absurd heq (by simp)
    next url2 heq =>
      rw [hv] at heq
      injection heq with h2
      subst h2
      split
      · rfl
      · rfl
      · split
        · rfl
        · rfl
  · intro name r
    rfl

/-- C9 witness: a two-endpoint list targets only the first endpoint
(slash stripped); an empty list yields the terminal configuration error
and no request. -/
theorem endpoint_selection_spec_witness :
    validate_and_build_url "LBA-Prime" (.arr [.str "http://10.0.0.2:11434/", .str "http://backup:11434"]) =
      .ok "http://10.0.0.2:11434/api/generate"
    ∧ validate_and_build_url "LBA-Prime" (.arr []) =
      .error (.valueError (endpointsErrMsg "LBA-Prime"))
    ∧ validate_and_build_url "LBA-Prime" (.str "http://10.0.0.2:11434") =
      .error (.valueError (endpointsErrMsg "LBA-Prime")) := by
  refine ⟨?_, ?_, ?_⟩
  · have h := (endpoint_selection_spec).1 "LBA-Prime" "http://10.0.0.2:11434/"
      [.str "http://backup:11434"] (by decide)
    rw [h]
    rfl
  · exact (endpoint_selection_spec).2.1 "LBA-Prime"
  · exact (endpoint_selection_spec).2.2.1 "LBA-Prime" (.str "http://10.0.0.2:11434")
      (fun l h => Json.noConfusion h)

/-- In a table with no duplicate primary keys, the rows matching a key
present in the table form a one-element list. -/
theorem filter_pk_unique (k : Nat) :
    ∀ (db : List AgentRec), (db.map AgentRec.pk).Nodup →
    db.any (fun b => b.pk = k) = true →
    ∃ b0, b0.pk = k ∧ db.filter (fun b => b.pk = k) = [b0] := by
  intro db
  induction db with
  | nil => intro _ h; simp at h
  | cons c rest ih =>
    intro hnd hany
    rw [List.map_cons, List.nodup_cons] at hnd
    by_cases hc : c.pk = k
    · refine ⟨c, hc, ?_⟩
      rw [List.filter_cons_of_pos (by simpa using hc)]
      have hrest : rest.filter (fun b => decide (b.pk = k)) = [] := by
        rw [List.filter_eq_nil_iff]
        intro b hb
        simp only [decide_eq_true_eq]
        intro hbk
        exact hnd.1 (by rw [hc, ← hbk]; exact List.mem_map_of_mem AgentRec.pk hb)
      rw [hrest]
    · rw [List.filter_cons_of_neg (by simpa using hc)]
      refine ih hnd.2 ?_
      simp only [List.any_cons, Bool.or_eq_true] at hany
      rcases hany with h | h
      · exact absurd (of_decide_eq_true h) hc
      · exact h

/-- Every row other than the saved one comes out of the deactivate-then-
write pass inactive. -/
theorem save_other_rows_inactive (a : AgentRec) (b : AgentRec) (hb : b.pk ≠ a.pk) :
    ((fun b => if b.pk = a.pk then a else b)
      ((fun b => if b.pk = a.pk then b else { b with is_active := false }) b)).is_active
      = false := by
  simp [hb]

/-- The rows of the deactivated-and-rewritten table whose pk differs from
the saved pk contribute nothing to the active filter. -/
theorem save_filter_others_nil (a : AgentRec) :
    ∀ (l : List AgentRec), (∀ b ∈ l, b.pk ≠ a.pk) →
    ((l.map fun b => if b.pk = a.pk then b else { b with is_active := false }).map
        fun b => if b.pk = a.pk then a else b).filter (fun b => b.is_active) = [] := by
  intro l hl
  rw [List.filter_eq_nil_iff]
  intro x hx
  rw [List.mem_map] at hx
  obtain ⟨y, hy, rfl⟩ := hx
  rw [List.mem_map] at hy
  obtain ⟨b, hb, rfl⟩ := hy
  simp [save_other_rows_inactive a b (hl b hb)]

/-- Update branch of `aigentSave` (the saved pk exists in the table):
the active rows afterwards are exactly the saved instance. -/
theorem save_update_branch_active (a : AgentRec) (ha : a.is_active = true) :
    ∀ (db : List AgentRec), (db.map AgentRec.pk).Nodup →
    (db.any fun b => b.pk = a.pk) = true →
    ((db.map fun b => if b.pk = a.pk then b else { b with is_active := false }).map
        fun b => if b.pk = a.pk then a else b).filter (fun b => b.is_active) = [a] := by
  intro db
  induction db with
  | nil => intro _ h; simp at h
  | cons c rest ih =>
    intro hnd hany
    rw [List.map_cons, List.nodup_cons] at hnd
    by_cases hc : c.pk = a.pk
    · simp only [List.map_cons, List.filter_cons]
      rw [if_pos hc, if_pos hc]
      have htail : ((rest.map fun b => if b.pk = a.pk then b
            else { b with is_active := false }).map
          fun b => if b.pk = a.pk then a else b).filter (fun b => b.is_active) = [] := by
        refine save_filter_others_nil a rest ?_
        intro b hb hbk
        exact hnd.1 (by rw [hc, ← hbk]; exact List.mem_map_of_mem AgentRec.pk hb)
      rw [htail]
      simp [ha]
    · simp only [List.map_cons, List.filter_cons]
      simp only [if_neg hc]
      rw [if_neg (show ¬((AgentRec.mk c.pk false).is_active = true) from Bool.false_ne_true)]
      refine ih hnd.2 ?_
      simp only [List.any_cons, Bool.or_eq_true] at hany
      rcases hany with h | h
      · exact absurd (of_decide_eq_true h) hc
      · exact h

/-- C3. `Aigent.save` with `is_active=True` deactivates every other row
and writes the instance (update when its pk exists, insert otherwise), so
for any prior set of active/inactive flags — with the table's primary
keys unique — exactly one row is active afterwards: the saved one. -/
theorem aigentSave_single_active (db : List AgentRec) (a : AgentRec)
    (hnd : (db.map AgentRec.pk).Nodup) (ha : a.is_active = true) :
    (aigentSave db a).filter (fun b => b.is_active) = [a] := by
  unfold aigentSave
  rw [if_pos ha]
  have hpk : ∀ b : AgentRec,
      ((fun b => if b.pk = a.pk then b else { b with is_active := false }) b).pk = b.pk := by
    intro b
    by_cases h : b.pk = a.pk <;> simp [h]
  have hany : ((db.map fun b => if b.pk = a.pk then b
        else { b with is_active := false }).any fun b => b.pk = a.pk) =
      (db.any fun b => b.pk = a.pk) := by
    rw [List.any_map]
    congr 1
    funext b
    simp only [Function.comp_apply, hpk b]
  by_cases h : (db.any fun b => b.pk = a.pk) = true
  · rw [if_pos (by rw [hany]; exact h)]
    exact save_update_branch_active a ha db hnd h
  · rw [if_neg (by rw [hany]; exact h)]
    rw [List.filter_append]
    have hnil : ((db.map fun b => if b.pk = a.pk then b
        else { b with is_active := false }).filter fun b => b.is_active) = [] := by
      rw [List.filter_eq_nil_iff]
      intro x hx
      rw [List.mem_map] at hx
      obtain ⟨b, hb, rfl⟩ := hx
      have hbk : b.pk ≠ a.pk := by
        intro hbk
        exact h (List.any_eq_true.mpr ⟨b, hb, by simpa using hbk⟩)
      simp [hbk]
    rw [hnil]
    simp [ha]

/-- C3 witness: activating agent 2 while agent 1 was active leaves agent
2 as the only active row. -/
theorem aigentSave_single_active_witness :
    (aigentSave [⟨1, true⟩, ⟨2, false⟩, ⟨3, false⟩] ⟨2, true⟩).filter
      (fun b => b.is_active) = [⟨2, true⟩] :=
  aigentSave_single_active [⟨1, true⟩, ⟨2, false⟩, ⟨3, false⟩] ⟨2, true⟩
    (by decide) rfl

/-- C8. The context assembler's formatted chat history: a failed fetch
yields the literal "Error retrieving conversation history."; a missing
record, an empty (or non-list) stored history yield the literal
"No previous conversation history."; otherwise the output is the last ten
stored entries — in stored order, so the newest comes last — each
rendered as a capitalized-role "Role: content" line, joined by
newlines. -/
theorem formatted_chat_history_spec :
    (get_formatted_chat_history_wrapper .fetchError = "Error retrieving conversation history.")
    ∧ (get_formatted_chat_history_wrapper .notFound = "No previous conversation history.")
    ∧ (∀ stored, normalizeHistory stored = [] →
        get_formatted_chat_history_wrapper (.found stored) = "No previous conversation history.")
    ∧ (∀ stored lines, (takeLast 10 (normalizeHistory stored)).mapM formatEntry = some lines →
        lines ≠ [] →
        get_formatted_chat_history_wrapper (.found stored) = String.intercalate "\n" lines)
    ∧ (∀ role content ts, formatEntry (histEntry role content ts) =
        some (pyCapitalize role ++ ": " ++ pyStr content)) := by
  refine ⟨rfl, rfl, ?_, ?_, ?_⟩
  · intro stored hempty
    show (match (takeLast 10 (normalizeHistory stored)).mapM formatEntry with
      | none => "Error retrieving conversation history."
      | some lines => if lines.isEmpty = true then "No previous conversation history."
          else String.intercalate "\n" lines) = "No previous conversation history."
    rw [hempty]
    rfl
  · intro stored lines hmap hne
    show (match (takeLast 10 (normalizeHistory stored)).mapM formatEntry with
      | none => "Error retrieving conversation history."
      | some l => if l.isEmpty = true then "No previous conversation history."
          else String.intercalate "\n" l) = String.intercalate "\n" lines
    rw [hmap]
    have hie : lines.isEmpty = false := by
      cases he : lines.isEmpty
      · rfl
      · exact absurd (List.isEmpty_iff.mp he) hne
    simp only [hie, Bool.false_eq_true, if_false]
  · intro role content ts
    rfl

/-- C8 witness: a three-entry history renders as three "Role: content"
lines in stored order; an empty stored history yields the no-history
fallback. -/
theorem formatted_chat_history_spec_witness :
    get_formatted_chat_history_wrapper (.found (.arr
        [histEntry "user" (.str "hi") "t1", histEntry "assistant" (.str "hello") "t1",
         histEntry "user" (.str "bye") "t2"])) = "User: hi\nAssistant: hello\nUser: bye"
    ∧ get_formatted_chat_history_wrapper (.found (.arr [])) =
        "No previous conversation history."
    ∧ get_formatted_chat_history_wrapper .fetchError =
        "Error retrieving conversation history." := by
  refine ⟨?_, ?_, ?_⟩
  · have h := (formatted_chat_history_spec).2.2.2.1 (.arr
      [histEntry "user" (.str "hi") "t1", histEntry "assistant" (.str "hello") "t1",
       histEntry "user" (.str "bye") "t2"])
      ["User: hi", "Assistant: hello", "User: bye"] (by rfl) (by decide)
    rw [h]
    rfl
  · exact (formatted_chat_history_spec).2.2.1 (.arr []) rfl
  · exact (formatted_chat_history_spec).1

/-- C7. The tool dispatcher always reduces to a plain string and never
lets an exception escape: an unregistered or unresolvable tool name
yields the descriptive unavailable-tool string; a `TypeError` from the
call (wrong parameter arity/names) becomes the invalid-parameters string;
any other exception becomes the unexpected-error string; a returned value
is coerced with `str`; and a coroutine (async) implementation is run to
completion by `asyncio.run` before returning, behaving exactly like the
blocking variant. -/
theorem execute_tool_spec (env : String → Option ToolImpl) (toolName : String)
    (parameters : Json) :
    (get_tool_function env toolName = none →
      execute_tool env toolName parameters =
        "Error: Tool \x27" ++ toolName ++ "\x27 is not available or configured incorrectly.")
    ∧ (¬ TOOL_REGISTRY.contains toolName = true → get_tool_function env toolName = none)
    ∧ (∀ call, get_tool_function env toolName = some (.sync call) →
        ((∀ v, call parameters = .ok v →
            execute_tool env toolName parameters = pyStr v)
         ∧ (∀ m, call parameters = .typeError m →
            execute_tool env toolName parameters =
              "Error: Invalid parameters for tool \x27" ++ toolName ++ "\x27. " ++ m)
         ∧ (∀ m, call parameters = .raised m →
            execute_tool env toolName parameters =
              "Error: An unexpected error occurred while running the tool: " ++ m)))
    ∧ (∀ call, get_tool_function env toolName = some (.async call) →
        ((∀ v, call parameters = .ok v →
            execute_tool env toolName parameters = pyStr v)
         ∧ (∀ m, call parameters = .typeError m →
            execute_tool env toolName parameters =
              "Error: Invalid parameters for tool \x27" ++ toolName ++ "\x27. " ++ m)
         ∧ (∀ m, call parameters = .raised m →
            execute_tool env toolName parameters =
              "Error: An unexpected error occurred while running the tool: " ++ m)))
    ∧ (∀ co : Unit → ToolRun, asyncioRun co = co ()) := by
  refine ⟨?_, ?_, ?_, ?_, fun co => rfl⟩
  · intro h
    unfold execute_tool
    rw [h]
  · intro h
    unfold get_tool_function
    rw [if_neg h]
  · intro call hcall
    refine ⟨?_, ?_, ?_⟩ <;> intro x hx <;>
      (unfold execute_tool; rw [hcall]; simp only []; rw [hx])
  · intro call hcall
    refine ⟨?_, ?_, ?_⟩ <;> intro x hx <;>
      (unfold execute_tool; rw [hcall]; simp only [asyncioRun]; rw [hx])

/-- C7 witness: a successful async run returns the coerced result;
missing parameters yield the invalid-parameters string; an unregistered
name yields the unavailable-tool string. -/
theorem execute_tool_spec_witness :
    execute_tool sampleToolEnv "web_search" (.obj [("query", .str "capital of France")]) =
      "Paris is the capital of France."
    ∧ execute_tool sampleToolEnv "web_search" (.obj []) =
      "Error: Invalid parameters for tool \x27web_search\x27. search_web() missing 1 required positional argument: \x27query\x27"
    ∧ execute_tool sampleToolEnv "weather" (.obj []) =
      "Error: Tool \x27weather\x27 is not available or configured incorrectly." := by
  refine ⟨?_, ?_, ?_⟩
  · exact ((execute_tool_spec sampleToolEnv "web_search"
      (.obj [("query", .str "capital of France")])).2.2.2.1 _ rfl).1
      (.str "Paris is the capital of France.") rfl
  · exact ((execute_tool_spec sampleToolEnv "web_search" (.obj [])).2.2.2.1 _ rfl).2.1
      "search_web() missing 1 required positional argument: \x27query\x27" rfl
  · exact (execute_tool_spec sampleToolEnv "weather" (.obj [])).1
      ((execute_tool_spec sampleToolEnv "weather" (.obj [])).2.1 (by decide))

/-- C1 (amended). A successful turn does NOT persist the model's updated
agent state or updated user state: the stored states are unchanged on
every path; the turn only appends the chat pair (with the shared
timestamp) and returns the answer, echoing the two updated-state values
as debug fields of the result. -/
theorem turn_states_not_persisted (args : TurnArgs) (replies : List OllamaReply) :
    (process_user_message_to_aigent args replies).aigentStateAfter = args.aigentState
    ∧ (process_user_message_to_aigent args replies).userStateAfter = args.userState
    ∧ (∀ ans ag us,
        (process_user_message_to_aigent args replies).outcome = .ok (ans, ag, us) →
        (process_user_message_to_aigent args replies).historyAfter =
          .arr (update_chat_history_wrapper args.history args.userMessage ans
            args.timestamp)) := by
  unfold process_user_message_to_aigent
  split
  · exact ⟨rfl, rfl, fun ans ag us h => absurd h (by simp)⟩
  · split
    · exact ⟨rfl, rfl, fun ans ag us h => absurd h (by simp)⟩
    · exact ⟨rfl, rfl, fun ans ag us h => absurd h (by simp)⟩
    · split
      · exact ⟨rfl, rfl, fun ans ag us h => absurd h (by simp)⟩
      · refine ⟨rfl, rfl, ?_⟩
        intro ans ag us h
        simp only [Except.ok.injEq, Prod.mk.injEq] at h
        obtain ⟨h1, h2, h3⟩ := h
        rw [← h1]

set_option maxRecDepth 100000 in
/-- C1 witness: on a concrete successful turn the history is the appended
pair and the stored agent state is untouched. -/
theorem turn_states_not_persisted_witness :
    (process_user_message_to_aigent sampleArgs
        [.ok [("response", .str fullAnswerRaw)]]).historyAfter =
      .arr (update_chat_history_wrapper sampleArgs.history sampleArgs.userMessage
        (.str "Hi") sampleArgs.timestamp)
    ∧ (process_user_message_to_aigent sampleArgs
        [.ok [("response", .str fullAnswerRaw)]]).aigentStateAfter =
      sampleArgs.aigentState := by
  have h := turn_states_not_persisted sampleArgs [.ok [("response", .str fullAnswerRaw)]]
  exact ⟨h.2.2 (.str "Hi") (.obj [("mood", .str "happy")]) (.obj [("n", .num 1)]) rfl,
    h.1⟩

set_option maxRecDepth 100000 in
/-- C1 counterexample. A turn whose model reply carries non-empty
object-shaped updated states succeeds, yet the stored agent state and
user state afterwards are the old values, not the updated ones — the
claim that the loop persists them into storage is false. -/
theorem turn_state_persistence_counterexample :
    (process_user_message_to_aigent sampleArgs
        [.ok [("response", .str fullAnswerRaw)]]).outcome =
      .ok (.str "Hi", .obj [("mood", .str "happy")], .obj [("n", .num 1)])
    ∧ (process_user_message_to_aigent sampleArgs
        [.ok [("response", .str fullAnswerRaw)]]).aigentStateAfter = .obj []
    ∧ (process_user_message_to_aigent sampleArgs
        [.ok [("response", .str fullAnswerRaw)]]).aigentStateAfter ≠
      .obj [("mood", .str "happy")]
    ∧ (process_user_message_to_aigent sampleArgs
        [.ok [("response", .str fullAnswerRaw)]]).userStateAfter = .obj []
    ∧ (process_user_message_to_aigent sampleArgs
        [.ok [("response", .str fullAnswerRaw)]]).userStateAfter ≠
      .obj [("n", .num 1)] := by
  refine ⟨rfl, rfl, ?_, rfl, ?_⟩
  · intro h
    have h2 : Json.obj [] = Json.obj [("mood", Json.str "happy")] := by
      calc Json.obj []
          = (process_user_message_to_aigent sampleArgs
              [.ok [("response", .str fullAnswerRaw)]]).aigentStateAfter := rfl
        _ = Json.obj [("mood", Json.str "happy")] := h
    injection h2 with hl
    exact List.noConfusion hl
  · intro h
    have h2 : Json.obj [] = Json.obj [("n", Json.num 1)] := by
      calc Json.obj []
          = (process_user_message_to_aigent sampleArgs
              [.ok [("response", .str fullAnswerRaw)]]).userStateAfter := rfl
        _ = Json.obj [("n", Json.num 1)] := h
    injection h2 with hl
    exact List.noConfusion hl

/-- C2 (amended). The task never invokes the tool dispatcher and never
makes a second model call: every execution performs zero tool-dispatcher
invocations and at most one generate request, whatever the model
replies. -/
theorem turn_no_tool_dispatch (args : TurnArgs) (replies : List OllamaReply) :
    (process_user_message_to_aigent args replies).toolCalls = 0
    ∧ (process_user_message_to_aigent args replies).modelCalls ≤ 1 := by
  unfold process_user_message_to_aigent
  split
  · exact ⟨rfl, Nat.zero_le 1⟩
  · split
    · exact ⟨rfl, Nat.le_refl 1⟩
    · exact ⟨rfl, Nat.le_refl 1⟩
    · split
      · exact ⟨rfl, Nat.le_refl 1⟩
      · exact ⟨rfl, Nat.le_refl 1⟩

set_option maxRecDepth 100000 in
/-- C2 counterexample. A decide-phase reply in the tool-selection shape
(`tool_to_use` + `parameters`) is not special-cased: even with a
synthesis reply queued, the turn makes exactly one model call, dispatches
no tool, and fails terminally on required-key validation — it does not
make two model calls and does not finalize from a synthesis result. -/
theorem tool_selection_turn_counterexample :
    parseJson toolSelectionRaw = some (.obj [("tool_to_use", .str "web_search"),
      ("parameters", .obj [("query", .str "capital of France")])])
    ∧ (process_user_message_to_aigent sampleArgs
        [.ok [("response", .str toolSelectionRaw)],
         .ok [("response", .str synthesisRaw)]]).modelCalls = 1
    ∧ (process_user_message_to_aigent sampleArgs
        [.ok [("response", .str toolSelectionRaw)],
         .ok [("response", .str synthesisRaw)]]).toolCalls = 0
    ∧ (process_user_message_to_aigent sampleArgs
        [.ok [("response", .str toolSelectionRaw)],
         .ok [("response", .str synthesisRaw)]]).outcome =
      .error (.valueError (missingKeysMsg requiredKeys ["tool_to_use", "parameters"])) :=
  ⟨rfl, rfl, rfl, rfl⟩

/-- C6 (amended). No text extractor runs before parsing: the pipeline
hands the raw `response` string directly to `json.loads`, so whenever the
raw string as a whole is not valid JSON the turn fails with the terminal
(never retried) JSON decode `ValueError` — even if a well-formed JSON
object is embedded in it. -/
theorem raw_output_parsed_directly (body : List (String × Json)) (s : String)
    (r : Nat) (hs : jget body "response" = some (.str s)) (hne : s ≠ "")
    (hp : parseJson s = none) :
    processOllamaBody body = .error (.valueError jsonDecodeErrMsg)
    ∧ handleTaskExc (.valueError jsonDecodeErrMsg) r = .fail := by
  constructor
  · have hse : s.isEmpty = false := by
      cases he : s.isEmpty
      · rfl
      · exact absurd ((String.isEmpty_iff s).mp he) hne
    unfold processOllamaBody
    rw [hs]
    simp [pyTruthy, hse, hp]
  · rfl

set_option maxRecDepth 100000 in
/-- C6 witness: plain prose with no JSON at all fails the parse and the
turn fails terminally. -/
theorem raw_output_parsed_directly_witness :
    processOllamaBody [("response", .str "It is raining.")] =
      .error (.valueError jsonDecodeErrMsg)
    ∧ handleTaskExc (.valueError jsonDecodeErrMsg) 2 = .fail :=
  raw_output_parsed_directly [("response", .str "It is raining.")]
    "It is raining." 2 rfl (by decide) (by rfl)

set_option maxRecDepth 100000 in
/-- C6 counterexample. A raw model output consisting of a single
well-formed JSON object (carrying all required keys) surrounded by prose
does NOT survive the pipeline: `json.loads` on the raw string fails and
the turn ends in the terminal JSON decode error, because no extractor is
applied. -/
theorem prose_wrapped_json_counterexample :
    proseWrappedRaw = "Sure! Here is the JSON you asked for: " ++ innerAnswerJson ++
      " Hope that helps."
    ∧ parseJson innerAnswerJson = some (.obj [("answer_to_user", .str "Hi"),
        ("updated_aigent_state", .obj []), ("updated_user_state", .obj [])])
    ∧ parseJson proseWrappedRaw = none
    ∧ (process_user_message_to_aigent sampleArgs
        [.ok [("response", .str proseWrappedRaw)]]).outcome =
      .error (.valueError jsonDecodeErrMsg) :=
  ⟨rfl, rfl, rfl, rfl⟩

end Aigent
